import Mathlib

/-!
Verification development for the `postman-o-m-tool` repository.

The repository is a browser-based viewer for Postman-style API collections
(`src/App.tsx`, `src/components/RequestEditor.tsx`, plus a types module).
This file gives a shallow embedding of its data model and operations:

* `Json`, `parseJson`, `stringifyWithIndent` model the JavaScript runtime's
  `JSON.parse` / `JSON.stringify(v, null, 4)` on which the code relies.
  Modelled restrictions (documented at each definition): numeric literals are
  integers, and `toLowerCase` is modelled ASCII-only (`jsToLower`).
* The Postman data shapes follow `src/types.ts` (`PostmanHeader`,
  `PostmanBody`, `PostmanRequest`, `PostmanItem`, `PostmanCollection`).
* The application-state operations follow `src/App.tsx`
  (`handleFileUpload`, `handleSendRequest`, `callGeminiAPI`, `filteredItems`,
  the sidebar's `findIndex`-based selection) and
  `src/components/RequestEditor.tsx` (tab state, URL effect, `prettifyJson`).
-/

/-- JSON values, modelling the JavaScript JSON data produced by `JSON.parse`.
Modelled restriction: numbers are integers (the repository's data never relies
on fractional or exponent literals, which this model rejects). -/
inductive Json where
  | null : Json
  | bool (b : Bool) : Json
  | num (n : Int) : Json
  | str (s : String) : Json
  | arr (elems : List Json) : Json
  | obj (fields : List (String × Json)) : Json
deriving Repr

/-- Whitespace characters skipped by the JSON grammar. -/
def isJsonWs (c : Char) : Bool :=
  [' ', '\t', '\n', '\r'].contains c

/-- Drop leading JSON whitespace. -/
def skipWs (cs : List Char) : List Char :=
  cs.dropWhile isJsonWs

/-- ASCII decimal digit test (code points 48-57). -/
def isDigitCh (c : Char) : Bool :=
  48 ≤ c.toNat && c.toNat ≤ 57

/-- Numeric value of a decimal digit character. -/
def digitVal (c : Char) : Nat := c.toNat - 48

/-- Split a character list into its leading run of digits and the rest. -/
def takeDigits (cs : List Char) : List Char × List Char :=
  cs.span isDigitCh

/-- Decimal value of a digit run. -/
def digitsToNat (ds : List Char) : Nat :=
  ds.foldl (fun acc c => 10 * acc + digitVal c) 0

/-- Value of a hexadecimal digit character, if any (digits, then the
lower-case and upper-case letter ranges by code point). -/
def hexVal (c : Char) : Option Nat :=
  let n := c.toNat
  if n ≥ 48 && n ≤ 57 then some (n - 48)
  else if n ≥ 97 && n ≤ 102 then some (n - 87)
  else if n ≥ 65 && n ≤ 70 then some (n - 55)
  else none

/-- Cons a character onto the front of a string. -/
def strCons (c : Char) (s : String) : String := ⟨c :: s.data⟩

/-- Translation of a single-character JSON string escape. -/
def escChar (e : Char) : Option Char :=
  if e = '"' then some '"'
  else if e = '\\' then some '\\'
  else if e = '/' then some '/'
  else if e = 'n' then some '\n'
  else if e = 't' then some '\t'
  else if e = 'r' then some '\r'
  else if e = 'b' then some '\x08'
  else if e = 'f' then some '\x0c'
  else none

/-- Parse the body of a JSON string literal (the opening quote already
consumed), returning the decoded string and the remaining input. -/
def parseStringBody : List Char → Option (String × List Char)
  | [] => none
  | '"' :: cs => some ("", cs)
  | '\\' :: 'u' :: h1 :: h2 :: h3 :: h4 :: cs =>
    match hexVal h1, hexVal h2, hexVal h3, hexVal h4 with
    | some a, some b, some c, some d =>
      (parseStringBody cs).map fun (s, rest) =>
        (strCons (Char.ofNat (((a * 16 + b) * 16 + c) * 16 + d)) s, rest)
    | _, _, _, _ => none
  | '\\' :: e :: cs =>
    match escChar e with
    | some ch => (parseStringBody cs).map fun (s, rest) => (strCons ch s, rest)
    | none => none
  | c :: cs => (parseStringBody cs).map fun (s, rest) => (strCons c s, rest)

/-- Parse an unsigned integer literal.  Modelled restriction: a following
`.`, `e` or `E` (fraction/exponent) is rejected rather than parsed. -/
def parseNumeral (cs : List Char) : Option (Nat × List Char) :=
  match takeDigits cs with
  | ([], _) => none
  | (ds, rest) =>
    match rest with
    | [] => some (digitsToNat ds, [])
    | c :: _ =>
      if c = '.' || c = 'e' || c = 'E' then none
      else some (digitsToNat ds, rest)

mutual

/-- Recursive-descent JSON value parser.  `fuel` strictly decreases on every
nested call; `parseJson` supplies more fuel than any input can consume. -/
def parseValue : Nat → List Char → Option (Json × List Char)
  | 0, _ => none
  | fuel + 1, cs =>
    match skipWs cs with
    | [] => none
    | c :: rest =>
      if c = '\x7b' then parseObjBody fuel rest
      else if c = '[' then parseArrBody fuel rest
      else if c = '"' then
        match parseStringBody rest with
        | some (s, rest2) => some (.str s, rest2)
        | none => none
      else if c = '-' then
        match parseNumeral rest with
        | some (n, rest2) => some (.num (-(n : Int)), rest2)
        | none => none
      else if isDigitCh c then
        match parseNumeral (c :: rest) with
        | some (n, rest2) => some (.num (n : Int), rest2)
        | none => none
      else if c = 't' then
        match rest with
        | 'r' :: 'u' :: 'e' :: rest2 => some (.bool true, rest2)
        | _ => none
      else if c = 'f' then
        match rest with
        | 'a' :: 'l' :: 's' :: 'e' :: rest2 => some (.bool false, rest2)
        | _ => none
      else if c = 'n' then
        match rest with
        | 'u' :: 'l' :: 'l' :: rest2 => some (.null, rest2)
        | _ => none
      else none

/-- Parse the inside of an array (after `[`). -/
def parseArrBody : Nat → List Char → Option (Json × List Char)
  | 0, _ => none
  | fuel + 1, cs =>
    match skipWs cs with
    | ']' :: rest => some (.arr [], rest)
    | cs2 =>
      match parseArrElems fuel cs2 with
      | some (xs, rest) => some (.arr xs, rest)
      | none => none

/-- Parse one or more comma-separated array elements up to `]`. -/
def parseArrElems : Nat → List Char → Option (List Json × List Char)
  | 0, _ => none
  | fuel + 1, cs =>
    match parseValue fuel cs with
    | none => none
    | some (v, rest) =>
      match skipWs rest with
      | ',' :: rest2 =>
        match parseArrElems fuel rest2 with
        | some (vs, rest3) => some (v :: vs, rest3)
        | none => none
      | ']' :: rest2 => some ([v], rest2)
      | _ => none

/-- Parse the inside of an object (after the opening brace). -/
def parseObjBody : Nat → List Char → Option (Json × List Char)
  | 0, _ => none
  | fuel + 1, cs =>
    match skipWs cs with
    | '\x7d' :: rest => some (.obj [], rest)
    | cs2 =>
      match parseObjMembers fuel cs2 with
      | some (fs, rest) => some (.obj fs, rest)
      | none => none

/-- Parse one or more comma-separated `"key": value` members up to the
closing brace. -/
def parseObjMembers : Nat → List Char → Option (List (String × Json) × List Char)
  | 0, _ => none
  | fuel + 1, cs =>
    match skipWs cs with
    | '"' :: cs2 =>
      match parseStringBody cs2 with
      | none => none
      | some (k, rest) =>
        match skipWs rest with
        | ':' :: rest2 =>
          match parseValue fuel rest2 with
          | none => none
          | some (v, rest3) =>
            match skipWs rest3 with
            | ',' :: rest4 =>
              match parseObjMembers fuel rest4 with
              | some (fs, rest5) => some ((k, v) :: fs, rest5)
              | none => none
            | '\x7d' :: rest4 => some ([(k, v)], rest4)
            | _ => none
        | _ => none
    | _ => none

end

/-- Model of the JavaScript `JSON.parse`: `some` on syntactically valid JSON
(of the modelled fragment), `none` where `JSON.parse` would throw.  The fuel
`4 * length + 16` exceeds the nesting/element call depth of any input. -/
def parseJson (s : String) : Option Json :=
  match parseValue (4 * s.length + 16) s.data with
  | some (v, rest) =>
    match skipWs rest with
    | [] => some v
    | _ :: _ => none
  | none => none

/-- Lower-case hex digit for escape output (`n < 16`), by table lookup. -/
def hexDigit (n : Nat) : String :=
  match "0123456789abcdef".data.get? n with
  | some c => ⟨[c]⟩
  | none => ""

/-- Escape one character the way `JSON.stringify` does. -/
def escapeStringChar (c : Char) : String :=
  if c = '"' then "\\\""
  else if c = '\\' then "\\\\"
  else if c = '\n' then "\\n"
  else if c = '\t' then "\\t"
  else if c = '\r' then "\\r"
  else if c = '\x08' then "\\b"
  else if c = '\x0c' then "\\f"
  else if c.toNat < 32 then "\\u00" ++ hexDigit (c.toNat / 16) ++ hexDigit (c.toNat % 16)
  else ⟨[c]⟩

/-- A JSON string literal as `JSON.stringify` prints it. -/
def quoteJsonString (s : String) : String :=
  "\"" ++ String.join (s.data.map escapeStringChar) ++ "\""

/-- `level` levels of 4-space indentation (`JSON.stringify(v, null, 4)`). -/
def pad (level : Nat) : String :=
  String.join (List.replicate level "    ")

mutual

/-- Model of `JSON.stringify(v, null, 4)` at nesting depth `level`. -/
def stringifyWithIndent : Nat → Json → String
  | _, .null => "null"
  | _, .bool true => "true"
  | _, .bool false => "false"
  | _, .num n => toString n
  | _, .str s => quoteJsonString s
  | _, .arr [] => "[]"
  | level, .arr (x :: xs) =>
    "[\n" ++ String.intercalate ",\n" (stringifyElems (level + 1) (x :: xs)) ++
      "\n" ++ pad level ++ "]"
  | _, .obj [] => "\x7b\x7d"
  | level, .obj (f :: fs) =>
    "\x7b\n" ++ String.intercalate ",\n" (stringifyMembers (level + 1) (f :: fs)) ++
      "\n" ++ pad level ++ "\x7d"

/-- Indented renderings of array elements. -/
def stringifyElems : Nat → List Json → List String
  | _, [] => []
  | level, x :: xs =>
    (pad level ++ stringifyWithIndent level x) :: stringifyElems level xs

/-- Indented renderings of object members. -/
def stringifyMembers : Nat → List (String × Json) → List String
  | _, [] => []
  | level, (k, v) :: fs =>
    (pad level ++ quoteJsonString k ++ ": " ++ stringifyWithIndent level v) ::
      stringifyMembers level fs

end

/-- `prettifyJson` from `src/components/RequestEditor.tsx`:
`JSON.stringify(JSON.parse(raw), null, 4)`, or `raw` verbatim when parsing
throws. -/
def prettifyJson (raw : String) : String :=
  match parseJson raw with
  | some v => stringifyWithIndent 0 v
  | none => raw

/-- Header shape from `src/types.ts` (`PostmanHeader`): `key`, `value`,
optional `name` (used as a description) and optional `type`. -/
structure PostmanHeader where
  key : String
  value : String
  name : Option String
  type : Option String
deriving Repr

/-- Body shape from `src/types.ts` (`PostmanBody`). -/
structure PostmanBody where
  mode : String
  raw : String
deriving Repr

/-- The `url: string | { raw: string }` union from `src/types.ts`. -/
inductive PostmanUrl where
  | plain (s : String)
  | object (raw : String)
deriving Repr

/-- Request shape from `src/types.ts` (`PostmanRequest`). -/
structure PostmanRequest where
  method : String
  header : List PostmanHeader
  body : PostmanBody
  url : PostmanUrl
deriving Repr

/-- Item shape from `src/types.ts` (`PostmanItem`): a named request with
opaque prior responses and the optional `_id` the importer assigns. -/
structure PostmanItem where
  name : String
  request : PostmanRequest
  response : List Json
  _id : Option String
deriving Repr

/-- Collection shape from `src/types.ts` (`PostmanCollection`).  The `info`
header is kept as raw JSON: the importer in `src/App.tsx` never inspects it
(it is only spread through), so no further decoding is performed. -/
structure PostmanCollection where
  info : Json
  item : List PostmanItem
deriving Repr

/-- Property lookup on a parsed JSON object.  Like JavaScript's last-wins
semantics for duplicate keys in an object literal, the last binding wins. -/
def lookupField (fs : List (String × Json)) (key : String) : Option Json :=
  (fs.reverse.find? fun p => p.1 == key).map fun p => p.2

/-- JavaScript string extraction from a JSON value (`undefined` is `none`). -/
def asString : Json → Option String
  | .str s => some s
  | _ => none

/-- Array extraction from a JSON value. -/
def asArr : Json → Option (List Json)
  | .arr xs => some xs
  | _ => none

/-- Decode a header object.  The code performs no validation (a bare TS
cast); this decoder fixes its domain to values matching the `PostmanHeader`
interface, the shape every claim quantifies over. -/
def decodeHeader (j : Json) : Option PostmanHeader :=
  match j with
  | .obj fs => do
    let key ← lookupField fs "key" >>= asString
    let value ← lookupField fs "value" >>= asString
    some ⟨key, value, lookupField fs "name" >>= asString,
          lookupField fs "type" >>= asString⟩
  | _ => none

/-- Decode the `url` union: a plain string or a `{raw}` object. -/
def decodeUrl (j : Json) : Option PostmanUrl :=
  match j with
  | .str s => some (.plain s)
  | .obj fs => (lookupField fs "raw" >>= asString).map .object
  | _ => none

/-- Decode a request object matching the `PostmanRequest` interface. -/
def decodeRequest (j : Json) : Option PostmanRequest :=
  match j with
  | .obj fs => do
    let method ← lookupField fs "method" >>= asString
    let headers ← (lookupField fs "header" >>= asArr) >>= fun hs =>
      hs.mapM decodeHeader
    let body ← lookupField fs "body" >>= fun b =>
      match b with
      | .obj bfs => do
        let mode ← lookupField bfs "mode" >>= asString
        let raw ← lookupField bfs "raw" >>= asString
        some (PostmanBody.mk mode raw)
      | _ => none
    let url ← lookupField fs "url" >>= decodeUrl
    some ⟨method, headers, body, url⟩
  | _ => none

/-- Decode one collection item matching the `PostmanItem` interface.
`response` defaults to empty and `_id` to absent when missing, mirroring the
code's indifference to them at import time. -/
def decodeItem (j : Json) : Option PostmanItem :=
  match j with
  | .obj fs => do
    let name ← lookupField fs "name" >>= asString
    let req ← lookupField fs "request" >>= decodeRequest
    let resp := match lookupField fs "response" >>= asArr with
      | some xs => xs
      | none => []
    some ⟨name, req, resp, lookupField fs "_id" >>= asString⟩
  | _ => none

/-- Decode a whole collection: requires an object with an `item` array of
decodable items (where the interface is not matched, `json.item.map` in the
code throws and the import fails, which this `none` models). -/
def decodeCollection (j : Json) : Option PostmanCollection :=
  match j with
  | .obj fs => do
    let items ← (lookupField fs "item" >>= asArr) >>= fun xs =>
      xs.mapM decodeItem
    some ⟨(lookupField fs "info").getD Json.null, items⟩
  | _ => none

/-- The mock response record of `src/App.tsx` (`response` state):
`{ status, data, time }`. -/
structure MockResponse where
  status : Nat
  data : Json
  time : Nat
deriving Repr

/-- The top-level application state of `src/App.tsx` (the `useState` hooks
of `App`). -/
structure AppState where
  collection : Option PostmanCollection
  selectedItemId : Option Nat
  searchQuery : String
  isUploading : Bool
  response : Option MockResponse
  isSending : Bool
  geminiResponse : Option Json
  isLoadingGemini : Bool
  geminiError : Option String
deriving Repr

/-- The alert text of the importer's catch branch in `src/App.tsx`. -/
def invalidCollectionAlert : String := "Invalid Postman Collection JSON"

/-- The id-injecting map of `handleFileUpload` in `src/App.tsx`:
`json.item.map((item, index) => ({...item, _id: ` index `-` name ` }))`. -/
def enrichedItem (items : List PostmanItem) : List PostmanItem :=
  items.mapIdx fun index it =>
    { it with _id := some (toString index ++ "-" ++ it.name) }

/-- `handleFileUpload` from `src/App.tsx`, observed after the reader's
`onload` completes: parse the file contents, enrich the items with ids, set
the collection and select index 0; on any throw, alert (second component)
and leave the state as it was.  `isUploading` is raised at entry and cleared
in the `finally`, so it ends `false` on every path. -/
def handleFileUpload (s : AppState) (fileContents : String) : AppState × Option String :=
  match (parseJson fileContents).bind decodeCollection with
  | some json =>
    ({ s with
        collection := some { json with item := enrichedItem json.item },
        selectedItemId := some 0,
        isUploading := false }, none)
  | none => ({ s with isUploading := false }, some invalidCollectionAlert)

/-- `handleSendRequest` from `src/App.tsx`, observed at resolution of its
800ms timeout: parse the request body; on success a 200 payload echoing the
parsed body, on failure a 400 error payload.  `serverTime` stands for
`new Date().toISOString()` and `elapsed` for `Date.now() - start`, both
environment inputs. -/
def handleSendRequest (serverTime : String) (elapsed : Nat) (item : PostmanItem) :
    MockResponse :=
  match parseJson item.request.body.raw with
  | some bodyParsed =>
    ⟨200, .obj [("success", .bool true),
                ("msg", .str "Operation successful"),
                ("received_data", bodyParsed),
                ("server_time", .str serverTime)], elapsed⟩
  | none =>
    ⟨400, .obj [("error", .str "Malformed JSON in request body")], elapsed⟩

/-- JavaScript substring test: does `pat` occur at the head of the list? -/
def startsWithChars : List Char → List Char → Bool
  | [], _ => true
  | _ :: _, [] => false
  | p :: ps, c :: cs => p == c && startsWithChars ps cs

/-- JavaScript substring test: does `pat` occur anywhere in the list? -/
def containsChars (pat : List Char) : List Char → Bool
  | [] => pat.isEmpty
  | c :: cs => startsWithChars pat (c :: cs) || containsChars pat cs

/-- JavaScript `haystack.includes(pat)` on strings. -/
def jsIncludes (haystack pat : String) : Bool :=
  containsChars pat.data haystack.data

/-- ASCII lowercase of one character (`A`-`Z` mapped down, rest kept). -/
def toLowerCh (c : Char) : Char :=
  if 'A' ≤ c ∧ c ≤ 'Z' then Char.ofNat (c.toNat + 32) else c

/-- Model of JavaScript `toLowerCase()`.  Modelled restriction: ASCII-only
case mapping. -/
def jsToLower (s : String) : String := ⟨s.data.map toLowerCh⟩

/-- The search predicate of `src/App.tsx`:
`item.name.toLowerCase().includes(searchQuery.toLowerCase())`. -/
def matchesQuery (searchQuery : String) (item : PostmanItem) : Bool :=
  jsIncludes (jsToLower item.name) (jsToLower searchQuery)

/-- `filteredItems` from `src/App.tsx`:
`collection?.item.filter(item => item.name.toLowerCase().includes(query))`. -/
def filteredItems (collection : PostmanCollection) (searchQuery : String) :
    List PostmanItem :=
  collection.item.filter (matchesQuery searchQuery)

/-- JavaScript `Array.prototype.findIndex` (first match, `-1` when none),
accumulator form. -/
def findIndexAux (p : PostmanItem → Bool) : List PostmanItem → Nat → Int
  | [], _ => -1
  | a :: l, i => if p a then (i : Int) else findIndexAux p l (i + 1)

/-- JavaScript `l.findIndex(p)`. -/
def jsFindIndex (p : PostmanItem → Bool) (l : List PostmanItem) : Int :=
  findIndexAux p l 0

/-- The sidebar click handler's index resolution in `src/App.tsx`:
`collection.item.findIndex(i => i.name === item.name)` for the clicked
filtered item. -/
def resolveOriginalIndex (collection : PostmanCollection) (item : PostmanItem) : Int :=
  jsFindIndex (fun i => i.name == item.name) collection.item

/-- The four tabs of `src/components/RequestEditor.tsx`. -/
inductive EditorTab where
  | params | auth | headers | body
deriving DecidableEq, Repr

/-- The local state of the `RequestEditor` component (`activeTab`, `copied`,
`url` hooks). -/
structure EditorState where
  activeTab : EditorTab
  copied : Bool
  url : String
deriving Repr

/-- The string form of `item.request.url`, as computed in both `App.tsx` and
`RequestEditor.tsx`:
`typeof url === 'string' ? url : url.raw`. -/
def rawUrlOf (item : PostmanItem) : String :=
  match item.request.url with
  | .plain s => s
  | .object raw => raw

/-- The editor state right after mounting on `item`: `useState('body')`,
`useState(false)`, and the `[item]` effect that assigns the URL field. -/
def initialEditorState (item : PostmanItem) : EditorState :=
  ⟨.body, false, rawUrlOf item⟩

/-- The editor state transition when the bound `item` prop changes without a
remount (in `App.tsx` the component is rendered with no `key`, so React
keeps the instance): only the `[item]` effect runs, re-deriving `url`; the
`activeTab` and `copied` hooks keep their values. -/
def editorOnItemChange (s : EditorState) (item : PostmanItem) : EditorState :=
  { s with url := rawUrlOf item }

/-- Tab header click: `onClick={() => setActiveTab(tab.toLowerCase())}`. -/
def editorOnTabClick (s : EditorState) (tab : EditorTab) : EditorState :=
  { s with activeTab := tab }

/-- The sentinel the code compares the credential against:
`apiKey === "PLACEHOLDER_API_KEY"`. -/
def placeholderApiKey : String := "PLACEHOLDER_API_KEY"

/-- The configuration-error message thrown in `callGeminiAPI`. -/
def missingKeyMessage : String := "Please set your GEMINI_API_KEY in .env.local file"

/-- Stands for the engine-raised `TypeError` message produced when
`data.candidates[0].content.parts[0]` dereferences `undefined`/`null`; the
exact wording is environment-specific and never inspected by the code. -/
def typeErrorMessage : String := "TypeError: cannot read properties of undefined"

/-- The catch-all message of `callGeminiAPI` for thrown non-`Error` values;
unreachable through the modelled paths (every modelled throw is an `Error`)
but kept for fidelity with the source. -/
def genericGeminiError : String := "An error occurred while calling Gemini API"

/-- Outcome of the single `fetch` in `callGeminiAPI`, an environment input:
either the promise rejects (network failure), or an HTTP response arrives
with its `ok` flag, status, status text and decoded JSON body. -/
inductive FetchResult where
  | netFailure (message : String)
  | httpResponse (ok : Bool) (status : Nat) (statusText : String) (body : Json)
deriving Repr

/-- JavaScript property access `v.key` on a JSON value: throws (`.error`) on
`undefined`/`null`, yields the field on objects, `undefined` (`none`) on
other primitives.  Modelled restriction: string-object properties such as
`.length` are not modelled (treated as `undefined`). -/
def jsProp (v : Option Json) (key : String) : Except String (Option Json) :=
  match v with
  | none => .error typeErrorMessage
  | some .null => .error typeErrorMessage
  | some (.obj fs) => .ok (lookupField fs key)
  | some _ => .ok none

/-- JavaScript indexing `v[0]`: throws on `undefined`/`null`, yields element
0 of arrays, the `"0"` field of objects, the first character of strings. -/
def jsIndexZero (v : Option Json) : Except String (Option Json) :=
  match v with
  | none => .error typeErrorMessage
  | some .null => .error typeErrorMessage
  | some (.arr xs) => .ok (xs.get? 0)
  | some (.obj fs) => .ok (lookupField fs "0")
  | some (.str s) => .ok ((s.data.get? 0).map fun c => Json.str ⟨[c]⟩)
  | some _ => .ok none

/-- The nested access `data.candidates[0].content.parts[0].text` of
`callGeminiAPI`: `.error` models a thrown `TypeError` on the way, `.ok`
carries the final (possibly `undefined`) `text` value. -/
def extractGeminiText (data : Json) : Except String (Option Json) := do
  let candidates ← jsProp (some data) "candidates"
  let c0 ← jsIndexZero candidates
  let content ← jsProp c0 "content"
  let parts ← jsProp content "parts"
  let p0 ← jsIndexZero parts
  jsProp p0 "text"

/-- `callGeminiAPI` from `src/App.tsx`, observed after the async function
settles.  `apiKey` models `process.env.GEMINI_API_KEY` (`none` = unset) and
`fetchOutcome` the network environment.  The returned flag records whether
`fetch` was reached.  The function first raises the busy flag and clears
both result fields, then: missing/placeholder key → configuration error
without fetching; rejected fetch → its message; non-`ok` response → status
error; otherwise the extracted `candidates[0].content.parts[0].text` (a
thrown `TypeError` during extraction lands in the catch).  The busy flag is
cleared in the `finally`. -/
def callGeminiAPI (s : AppState) (apiKey : Option String) (fetchOutcome : FetchResult) :
    AppState × Bool :=
  let s0 : AppState :=
    { s with isLoadingGemini := true, geminiResponse := none, geminiError := none }
  if apiKey.getD "" = "" ∨ apiKey = some placeholderApiKey then
    ({ s0 with geminiError := some missingKeyMessage, isLoadingGemini := false }, false)
  else
    match fetchOutcome with
    | .netFailure message =>
      ({ s0 with geminiError := some message, isLoadingGemini := false }, true)
    | .httpResponse ok status statusText body =>
      if ok = false then
        ({ s0 with
            geminiError := some ("Gemini API error: " ++ toString status ++ " " ++ statusText),
            isLoadingGemini := false }, true)
      else
        match extractGeminiText body with
        | .error msg =>
          ({ s0 with geminiError := some msg, isLoadingGemini := false }, true)
        | .ok geminiText =>
          ({ s0 with geminiResponse := geminiText, isLoadingGemini := false }, true)

/-- Key list of a JSON object (for payload-shape statements). -/
def objKeys : Json → List String
  | .obj fs => fs.map fun p => p.1
  | _ => []

/-- A minimal well-formed item fixture (POST, raw body, plain URL). -/
def mkItem (nm raw : String) : PostmanItem :=
  ⟨nm, ⟨"POST", [], ⟨"raw", raw⟩, .plain "http://device.local"⟩, [], none⟩

/-- The initial application state (all `useState` defaults in `App`). -/
def emptyState : AppState :=
  ⟨none, none, "", false, none, false, none, false, none⟩

/-- Fixture: item whose body parses as JSON. -/
def itemValidBody : PostmanItem := mkItem "device command" "\x7b\"x\":1\x7d"

/-- Fixture: item whose body is not JSON. -/
def itemBadBody : PostmanItem := mkItem "broken command" "not json"

/-- Fixtures: two distinct items sharing one name. -/
def dupItemA : PostmanItem := mkItem "restart pump" "1"

/-- Second of the two same-named items (different body). -/
def dupItemB : PostmanItem := mkItem "restart pump" "2"

/-- Collection with a duplicated item name. -/
def dupCollection : PostmanCollection := ⟨Json.null, [dupItemA, dupItemB]⟩

/-- Fixture item named `alpha`. -/
def alphaItem : PostmanItem := mkItem "alpha" "1"

/-- Fixture item named `beta`. -/
def betaItem : PostmanItem := mkItem "beta" "2"

/-- Two-item collection with distinct names. -/
def abCollection : PostmanCollection := ⟨Json.null, [alphaItem, betaItem]⟩

/-- A previously imported one-item collection. -/
def oldCollection : PostmanCollection := ⟨Json.null, [alphaItem]⟩

/-- A state carrying a loaded collection plus ephemeral results from both
pipelines, as left by earlier sends/analyses. -/
def staleResultsState : AppState :=
  ⟨some oldCollection, some 0, "", false, some ⟨400, Json.null, 5⟩, false,
   some (Json.str "old analysis"), false, none⟩

/-- Collection file contents with an empty `item` array. -/
def emptyCollectionContents : String := "\x7b\"item\":[]\x7d"

/-- Collection file contents whose two items decode to `abCollection`. -/
def twoItemContents : String :=
  "\x7b\"item\":[" ++
  "\x7b\"name\":\"alpha\",\"request\":\x7b\"method\":\"POST\",\"header\":[]," ++
  "\"body\":\x7b\"mode\":\"raw\",\"raw\":\"1\"\x7d," ++
  "\"url\":\"http://device.local\"\x7d,\"response\":[]\x7d," ++
  "\x7b\"name\":\"beta\",\"request\":\x7b\"method\":\"POST\",\"header\":[]," ++
  "\"body\":\x7b\"mode\":\"raw\",\"raw\":\"2\"\x7d," ++
  "\"url\":\"http://device.local\"\x7d,\"response\":[]\x7d" ++
  "]\x7d"

/-- `findIndex` returns `start + i` when position `i` holds the first
element satisfying `p`. -/
theorem findIndexAux_first_match (p : PostmanItem → Bool) :
    ∀ (l : List PostmanItem) (i : Nat) (a : PostmanItem) (start : Nat),
      l.get? i = some a → p a = true →
      (∀ j, j < i → ∀ b, l.get? j = some b → p b = false) →
      findIndexAux p l start = ((start + i : Nat) : Int)
  | [], i, _, _, hget, _, _ => by simp [List.get?] at hget
  | c :: l, 0, a, start, hget, hp, _ => by
    have hca : c = a := Option.some.inj hget
    subst hca
    simp [findIndexAux, hp]
  | c :: l, i + 1, a, start, hget, hp, hfirst => by
    have hc : p c = false := hfirst 0 (Nat.succ_pos i) c rfl
    have ih := findIndexAux_first_match p l i a (start + 1) hget hp
      (fun j hj b hb => hfirst (j + 1) (Nat.succ_lt_succ hj) b hb)
    simp only [findIndexAux, hc, if_neg Bool.false_ne_true, ih]
    push_cast
    ring

/-- `get?` commutes with `mapIdx`. -/
theorem mapIdx_get_opt {α β : Type} (f : Nat → α → β) (l : List α) (i : Nat) :
    (l.mapIdx f).get? i = (l.get? i).map (f i) := by
  by_cases h : i < l.length
  · have h' : i < (l.mapIdx f).length := by simpa [List.length_mapIdx] using h
    rw [List.get?_eq_get h, List.get?_eq_get h', List.get_mapIdx l f i h]
    rfl
  · have h1 : l.get? i = none := List.get?_eq_none.mpr (Nat.le_of_not_lt h)
    have h2 : (l.mapIdx f).get? i = none := by
      apply List.get?_eq_none.mpr
      simpa [List.length_mapIdx] using Nat.le_of_not_lt h
    rw [h1, h2]
    rfl

/-- C1 counterexample: on a body that parses, the mock send's 200 payload
uses the keys `received_data` and `server_time`, not the `receivedData` and
`serverTime` the claim states. -/
theorem c1_counterexample :
    (handleSendRequest "2024-01-01T00:00:00.000Z" 800 itemValidBody).status = 200 ∧
    objKeys (handleSendRequest "2024-01-01T00:00:00.000Z" 800 itemValidBody).data =
      ["success", "msg", "received_data", "server_time"] ∧
    "receivedData" ∉ objKeys (handleSendRequest "2024-01-01T00:00:00.000Z" 800 itemValidBody).data ∧
    "serverTime" ∉ objKeys (handleSendRequest "2024-01-01T00:00:00.000Z" 800 itemValidBody).data :=
  ⟨rfl, rfl, by decide, by decide⟩

/-- C1 (amended): the mock send resolves on whether `request.body.raw`
parses as JSON — status 200 with payload
`{success: true, msg: "Operation successful", received_data: <parsed body>,
server_time: <current timestamp>}` when it parses, status 400 with payload
`{error: "Malformed JSON in request body"}` when it does not. -/
theorem c1_theorem (serverTime : String) (elapsed : Nat) (item : PostmanItem) :
    (∀ v, parseJson item.request.body.raw = some v →
      handleSendRequest serverTime elapsed item =
        ⟨200, .obj [("success", .bool true), ("msg", .str "Operation successful"),
                    ("received_data", v), ("server_time", .str serverTime)], elapsed⟩) ∧
    (parseJson item.request.body.raw = none →
      handleSendRequest serverTime elapsed item =
        ⟨400, .obj [("error", .str "Malformed JSON in request body")], elapsed⟩) := by
  constructor
  · intro v hv
    simp [handleSendRequest, hv]
  · intro hv
    simp [handleSendRequest, hv]

/-- C1 witness: both branches of the amended statement at concrete items. -/
theorem c1_witness :
    handleSendRequest "T0" 800 itemValidBody =
      ⟨200, .obj [("success", .bool true), ("msg", .str "Operation successful"),
                  ("received_data", .obj [("x", .num 1)]), ("server_time", .str "T0")],
       800⟩ ∧
    handleSendRequest "T0" 800 itemBadBody =
      ⟨400, .obj [("error", .str "Malformed JSON in request body")], 800⟩ :=
  by
  have h1 := c1_theorem ("T0") 800 itemValidBody
  have h2 := c1_theorem ("T0") 800 itemBadBody
  exact ⟨h1.1 (Json.obj [("x", Json.num 1)]) rfl, h2.2 rfl⟩

/-- C2 counterexample: with two distinct items sharing a name, the item at
filtered position 1 (original index 1) resolves through the name-based
`findIndex` to index 0, not its own index. -/
theorem c2_counterexample :
    (filteredItems dupCollection "").get? 1 = some dupItemB ∧
    dupCollection.item.get? 1 = some dupItemB ∧
    dupItemA.request.body.raw ≠ dupItemB.request.body.raw ∧
    resolveOriginalIndex dupCollection dupItemB = 0 ∧
    resolveOriginalIndex dupCollection dupItemB ≠ 1 :=
  ⟨rfl, rfl, by decide, rfl, by decide⟩

/-- C2 (amended): selecting an item shown in the filtered view resolves to
the original index of the first item bearing the selected item's name; in
particular it round-trips to the item's own original index whenever no
earlier item shares that name (for example when names are unique). -/
theorem c2_theorem (collection : PostmanCollection) (searchQuery : String)
    (item : PostmanItem) (i : Nat)
    (_hshown : item ∈ filteredItems collection searchQuery)
    (hi : collection.item.get? i = some item)
    (hfirst : ∀ j, j < i → ∀ b, collection.item.get? j = some b → b.name ≠ item.name) :
    resolveOriginalIndex collection item = (i : Int) := by
  have h := findIndexAux_first_match (fun b => b.name == item.name)
    collection.item i item 0 hi (by simp)
    (fun j hj b hb => by simpa using hfirst j hj b hb)
  simpa [resolveOriginalIndex, jsFindIndex] using h

/-- C2 witness: in the two-item collection with distinct names, selecting
`beta` from the view filtered by `"bet"` resolves to its original index 1. -/
theorem c2_witness : resolveOriginalIndex abCollection betaItem = (1 : Int) :=
  c2_theorem abCollection "bet" betaItem 1
    (show betaItem ∈ [betaItem] from List.mem_singleton.mpr rfl)
    rfl
    (by
      intro j hj b hb
      have hj0 : j = 0 := by omega
      subst hj0
      have hb2 : b = alphaItem := (Option.some.inj hb).symm
      subst hb2
      decide)

/-- C3 counterexample: with the Headers tab active, changing the bound item
leaves Headers active — the tab is not re-derived to Body on a new
selection. -/
theorem c3_counterexample :
    (editorOnItemChange (editorOnTabClick (initialEditorState alphaItem) .headers)
        betaItem).activeTab = .headers ∧
    (editorOnItemChange (editorOnTabClick (initialEditorState alphaItem) .headers)
        betaItem).activeTab ≠ .body :=
  ⟨rfl, by decide⟩

/-- C3 (amended): when the bound `Request` changes, only the URL field is
re-derived; the active tab is carried over unchanged from before the change
(it is Body only as the initial state of a fresh mount). -/
theorem c3_theorem (s : EditorState) (item : PostmanItem) :
    (editorOnItemChange s item).activeTab = s.activeTab ∧
    (editorOnItemChange s item).url = rawUrlOf item ∧
    (editorOnItemChange s item).copied = s.copied ∧
    ∀ firstItem : PostmanItem, (initialEditorState firstItem).activeTab = .body :=
  ⟨rfl, rfl, rfl, fun _ => rfl⟩

/-- C4 counterexample: a successful import (alert-free, collection replaced
by the newly decoded empty one) leaves the stale mock response and the stale
analysis result in place instead of clearing them. -/
theorem c4_counterexample :
    (handleFileUpload staleResultsState emptyCollectionContents).2 = none ∧
    (handleFileUpload staleResultsState emptyCollectionContents).1.collection.map
        (fun c => c.item.length) = some 0 ∧
    staleResultsState.collection.map (fun c => c.item.length) = some 1 ∧
    (handleFileUpload staleResultsState emptyCollectionContents).1.response
      = staleResultsState.response ∧
    (handleFileUpload staleResultsState emptyCollectionContents).1.response.isSome = true ∧
    (handleFileUpload staleResultsState emptyCollectionContents).1.geminiResponse
      = staleResultsState.geminiResponse ∧
    (handleFileUpload staleResultsState emptyCollectionContents).1.geminiResponse.isSome
      = true :=
  ⟨rfl, rfl, rfl, rfl, rfl, rfl, rfl⟩

/-- C4 (amended): a successful import replaces the Collection wholesale and
resets the selection to index 0, but does not clear the ephemeral results:
the MockResponse and the AnalysisResult/error of the previous Collection are
carried over unchanged and survive until their own pipelines next run. -/
theorem c4_theorem (s : AppState) (fileContents : String) (json : PostmanCollection)
    (h : (parseJson fileContents).bind decodeCollection = some json) :
    handleFileUpload s fileContents =
      ({ s with
          collection := some { json with item := enrichedItem json.item },
          selectedItemId := some 0,
          isUploading := false }, none) ∧
    (handleFileUpload s fileContents).1.response = s.response ∧
    (handleFileUpload s fileContents).1.geminiResponse = s.geminiResponse ∧
    (handleFileUpload s fileContents).1.geminiError = s.geminiError := by
  simp [handleFileUpload, h]

/-- C4 witness: the amended statement applied at the stale-results state and
a concrete collection file. -/
theorem c4_witness :
    (handleFileUpload staleResultsState emptyCollectionContents).1.response
      = staleResultsState.response ∧
    (handleFileUpload staleResultsState emptyCollectionContents).1.geminiResponse
      = staleResultsState.geminiResponse :=
  ⟨(c4_theorem staleResultsState emptyCollectionContents ⟨Json.null, []⟩ rfl).2.1,
   (c4_theorem staleResultsState emptyCollectionContents ⟨Json.null, []⟩ rfl).2.2.1⟩

/-- C5: importing a well-formed collection yields items of equal length,
with the i-th item's `_id` overwritten to `"<i>-<name_i>"` and every other
field (hence the order) preserved. -/
theorem c5_theorem (s : AppState) (fileContents : String) (json : PostmanCollection)
    (h : (parseJson fileContents).bind decodeCollection = some json) :
    (handleFileUpload s fileContents).1.collection =
      some { json with item := enrichedItem json.item } ∧
    (enrichedItem json.item).length = json.item.length ∧
    ∀ i, (enrichedItem json.item).get? i = (json.item.get? i).map
      (fun it => { it with _id := some (toString i ++ "-" ++ it.name) }) := by
  refine ⟨by simp [handleFileUpload, h], by simp [enrichedItem, List.length_mapIdx], ?_⟩
  intro i
  exact mapIdx_get_opt (fun index it =>
    { it with _id := some (toString index ++ "-" ++ it.name) }) json.item i

set_option maxRecDepth 8000 in
/-- C5 witness: the two-item collection file, with both assigned ids
spelled out. -/
theorem c5_witness :
    (handleFileUpload emptyState twoItemContents).1.collection =
      some { abCollection with item := enrichedItem abCollection.item } ∧
    (enrichedItem abCollection.item).length = abCollection.item.length ∧
    (enrichedItem abCollection.item).get? 0 = (abCollection.item.get? 0).map
      (fun it => { it with _id := some (toString 0 ++ "-" ++ it.name) }) ∧
    (enrichedItem abCollection.item).get? 1 = (abCollection.item.get? 1).map
      (fun it => { it with _id := some (toString 1 ++ "-" ++ it.name) }) :=
  ⟨(c5_theorem emptyState twoItemContents abCollection rfl).1,
   (c5_theorem emptyState twoItemContents abCollection rfl).2.1,
   (c5_theorem emptyState twoItemContents abCollection rfl).2.2 0,
   (c5_theorem emptyState twoItemContents abCollection rfl).2.2 1⟩

/-- C6: the sidebar filter returns exactly the items whose lowercased name
contains the lowercased query (`matchesQuery`), as a sublist (original
relative order preserved), and the empty query returns all items. -/
theorem c6_theorem (collection : PostmanCollection) (searchQuery : String) :
    (∀ item, item ∈ filteredItems collection searchQuery ↔
      item ∈ collection.item ∧ matchesQuery searchQuery item = true) ∧
    List.Sublist (filteredItems collection searchQuery) collection.item ∧
    filteredItems collection "" = collection.item := by
  refine ⟨fun item => List.mem_filter, List.filter_sublist _, ?_⟩
  apply List.filter_eq_self.mpr
  intro a _
  show containsChars (jsToLower "").data (jsToLower a.name).data = true
  cases (jsToLower a.name).data with
  | nil => rfl
  | cons c cs => simp [containsChars, startsWithChars]

/-- C7: body pretty-printing re-serializes parsed JSON with 4-space indent,
returns non-JSON verbatim (hence is idempotent there), and on `'{"a":1}'`
produces the expected indented text. -/
theorem c7_theorem :
    (∀ s v, parseJson s = some v → prettifyJson s = stringifyWithIndent 0 v) ∧
    (∀ s, parseJson s = none → prettifyJson s = s) ∧
    prettifyJson "\x7b\"a\":1\x7d" = "\x7b\n    \"a\": 1\n\x7d" ∧
    (∀ s, parseJson s = none → prettifyJson (prettifyJson s) = prettifyJson s) := by
  have hnone : ∀ s, parseJson s = none → prettifyJson s = s := by
    intro s h
    simp [prettifyJson, h]
  refine ⟨?_, hnone, rfl, fun s h => ?_⟩
  · intro s v h
    simp [prettifyJson, h]
  · rw [hnone s h, hnone s h]

/-- C7 witness: both branches and the idempotence at concrete inputs. -/
theorem c7_witness :
    prettifyJson "\x7b\"a\":1\x7d" = stringifyWithIndent 0 (Json.obj [("a", Json.num 1)]) ∧
    prettifyJson "not json" = "not json" ∧
    prettifyJson (prettifyJson "not json") = prettifyJson "not json" :=
  ⟨c7_theorem.1 "\x7b\"a\":1\x7d" (Json.obj [("a", Json.num 1)]) rfl,
   c7_theorem.2.1 "not json" rfl,
   c7_theorem.2.2.2 "not json" rfl⟩

/-- C8: on contents that are not syntactically valid JSON, the import alerts
and returns the state exactly as it was (given the importer was idle):
collection, selection and all results untouched. -/
theorem c8_theorem (s : AppState) (fileContents : String)
    (hbad : parseJson fileContents = none) (hidle : s.isUploading = false) :
    handleFileUpload s fileContents = (s, some invalidCollectionAlert) := by
  have hs : { s with isUploading := false } = s := by
    cases s
    simp_all
  simp [handleFileUpload, hbad, hs]

/-- C8 witness: malformed contents against a state holding a collection. -/
theorem c8_witness :
    handleFileUpload staleResultsState "not json"
      = (staleResultsState, some invalidCollectionAlert) :=
  c8_theorem staleResultsState "not json" rfl rfl

/-- C9: with the credential unset, empty, or equal to the placeholder
sentinel, the analysis call resolves with the configuration-error message
(telling the operator to set the key) and the `false` flag recording that
`fetch` was never reached. -/
theorem c9_theorem (s : AppState) (apiKey : Option String) (fetchOutcome : FetchResult)
    (hkey : apiKey = none ∨ apiKey = some "" ∨ apiKey = some placeholderApiKey) :
    callGeminiAPI s apiKey fetchOutcome =
      ({ s with geminiResponse := none,
                geminiError := some missingKeyMessage,
                isLoadingGemini := false }, false) := by
  rcases hkey with h | h | h <;> subst h <;> simp [callGeminiAPI]

/-- C9 witness: unset credential, with a would-be-successful network
environment that is never consulted. -/
theorem c9_witness :
    callGeminiAPI emptyState none (FetchResult.httpResponse true 200 "OK" Json.null) =
      ({ emptyState with geminiResponse := none,
                         geminiError := some missingKeyMessage,
                         isLoadingGemini := false }, false) :=
  c9_theorem emptyState none (FetchResult.httpResponse true 200 "OK" Json.null)
    (Or.inl rfl)

/-- C10: an analysis invocation never leaves both a text result and an
error message present (at most one is set), and the outcome is independent
of whatever results were present before — both fields are cleared first. -/
theorem c10_theorem (s : AppState) (apiKey : Option String) (fetchOutcome : FetchResult)
    (x : Option Json) (y : Option String) :
    (((callGeminiAPI s apiKey fetchOutcome).1.geminiResponse.isSome) &&
      ((callGeminiAPI s apiKey fetchOutcome).1.geminiError.isSome)) = false ∧
    callGeminiAPI s apiKey fetchOutcome =
      callGeminiAPI { s with geminiResponse := x, geminiError := y } apiKey fetchOutcome := by
  constructor
  · unfold callGeminiAPI
    split
    · rfl
    · cases fetchOutcome with
      | netFailure message => rfl
      | httpResponse ok status statusText body =>
        by_cases hok : ok = false
        · simp [hok]
        · simp only [if_neg hok]
          cases h : extractGeminiText body with
          | error msg => simp [h]
          | ok geminiText => simp [h]
  · cases s
    rfl
